import Mathlib

/-!
Verification of the agent orchestration runtime of the advisor-ai-agent
repository: the consent-gated tool dispatcher (`ToolExecutor.execute`),
the audit recorder (`AuditLogger`), the consent gate (`ConsentManager`),
the durable task store (`_update_task`), the conversation engine
(`FinancialAdvisorAgent.chat_stream`) and the proactive evaluator
(`FinancialAdvisorAgent.proactive_check`).

Python sources are shallowly embedded: JSON values become an inductive
type, database rows become lists of structures threaded through the
functions, `datetime.utcnow()` becomes an explicit logical clock, and
Python exceptions become `Except String`.  External collaborators
(Gmail/Calendar/HubSpot services and the language-model gateway) are
parameters supplied by the caller of each embedded function, exactly as
the source treats them as opaque async calls.
-/

/-! ## String helpers: Python `in` (substring) on strings -/

/-- Substring test on character lists: does `pat` occur contiguously in
the haystack?  Mirrors Python `pat in hay`. -/
def charsContain (pat : List Char) : List Char → Bool
  | [] => pat.isEmpty
  | c :: rest => pat.isPrefixOf (c :: rest) || charsContain pat rest

/-- Python `str.lower()` (ASCII), written structurally so it reduces. -/
def asciiLower (s : String) : String := ⟨s.data.map Char.toLower⟩

/-- Python `str.upper()` (ASCII), written structurally so it reduces. -/
def asciiUpper (s : String) : String := ⟨s.data.map Char.toUpper⟩

/-- Python `pat in hay` for strings. -/
def strContains (hay pat : String) : Bool :=
  charsContain pat.data hay.data

/-! ## JSON values

Tool inputs, tool results and audit payloads are Python dicts/lists;
they are embedded as a mutual inductive of values, arrays and objects
(an object is an ordered association list, as Python dicts are). -/

mutual
inductive JVal where
  | jstr (s : String) : JVal
  | jnum (n : Int) : JVal
  | jbool (b : Bool) : JVal
  | jnull : JVal
  | jarr (items : JArr) : JVal
  | jobj (fields : JObj) : JVal

inductive JArr where
  | anil : JArr
  | acons (head : JVal) (tail : JArr) : JArr

inductive JObj where
  | onil : JObj
  | ocons (key : String) (val : JVal) (tail : JObj) : JObj
end

/-- Python `dict.get(k)`: first binding of `k` in an object, `None` when
absent or when the value is not a dict. -/
def JObj.lookup : JObj → String → Option JVal
  | .onil, _ => none
  | .ocons k v t, key => if k == key then some v else t.lookup key

/-- `data.get(k)` on a JSON value (only objects have keys). -/
def JVal.getKey : JVal → String → Option JVal
  | .jobj fields, key => fields.lookup key
  | _, _ => none

/-- Python truthiness of a JSON value (`if memory:`). -/
def JVal.truthy : JVal → Bool
  | .jnull => false
  | .jbool b => b
  | .jnum n => n != 0
  | .jstr s => !s.isEmpty
  | .jarr .anil => false
  | .jarr (.acons _ _) => true
  | .jobj .onil => false
  | .jobj (.ocons _ _ _) => true

/-! ## Audit sanitizer (`AuditLogger._sanitize_data`) -/

/-- The default denylist of `AuditLogger._sanitize_data`. -/
def sensitiveKeys : List String :=
  ["password", "token", "secret", "api_key", "access_token",
   "refresh_token", "authorization", "credit_card", "ssn"]

/-- `any(sensitive in key.lower() for sensitive in sensitive_keys)`. -/
def isSensitiveKey (key : String) : Bool :=
  sensitiveKeys.any (fun s => strContains (asciiLower key) s)

/-- The four-key pattern named by the testable property:
`token|password|secret|api_key`, case-insensitive, substring match. -/
def claimKeys : List String := ["token", "password", "secret", "api_key"]

/-- Does the key match `token|password|secret|api_key` case-insensitively? -/
def isClaimKey (key : String) : Bool :=
  claimKeys.any (fun s => strContains (asciiLower key) s)

/-- The fixed redaction marker written by the sanitizer. -/
def redactedMarker : String := "***REDACTED***"

mutual
/-- `AuditLogger._sanitize_data` on a value: dicts have denylisted keys
replaced by the marker and other values recursively sanitized; lists are
sanitized elementwise; scalars pass through. -/
def sanitizeVal : JVal → JVal
  | .jobj fields => .jobj (sanitizeObj fields)
  | .jarr items => .jarr (sanitizeArr items)
  | v => v

/-- Elementwise sanitization of a JSON array. -/
def sanitizeArr : JArr → JArr
  | .anil => .anil
  | .acons h t => .acons (sanitizeVal h) (sanitizeArr t)

/-- Field-wise sanitization of a JSON object. -/
def sanitizeObj : JObj → JObj
  | .onil => .onil
  | .ocons k v t =>
    if isSensitiveKey k then .ocons k (JVal.jstr redactedMarker) (sanitizeObj t)
    else .ocons k (sanitizeVal v) (sanitizeObj t)
end

/-- Is this value exactly the redaction marker string? -/
def isRedacted : JVal → Bool
  | .jstr s => s == redactedMarker
  | _ => false

mutual
/-- Every field (at any depth) whose key satisfies `p` holds the
redaction marker. -/
def valClean (p : String → Bool) : JVal → Bool
  | .jobj fields => objClean p fields
  | .jarr items => arrClean p items
  | _ => true

/-- `valClean` over an array. -/
def arrClean (p : String → Bool) : JArr → Bool
  | .anil => true
  | .acons h t => valClean p h && arrClean p t

/-- `valClean` over object fields. -/
def objClean (p : String → Bool) : JObj → Bool
  | .onil => true
  | .ocons k v t =>
    (if p k then isRedacted v else valClean p v) && objClean p t
end

/-! ## Consent gate (`app/models/consent.py`)

A `UserConsent` row of the `user_consents` table.  Timestamps are a
logical `Nat` clock; the hour-of-day used by `check_conditions` is
carried separately in a `Clock`, since the source derives it from the
same `datetime.utcnow()` call. -/

/-- The logical clock: `now` orders timestamps, `hour` is
`datetime.utcnow().hour`. -/
structure Clock where
  now : Nat
  hour : Nat
deriving DecidableEq

/-- `conditions` JSON of a consent row: the source reads only
`allowed_hours` (a start/end pair) and ignores `max_per_day`. -/
structure Conditions where
  maxPerDay : Option Nat
  allowedHours : Option (Nat × Nat)
deriving DecidableEq

/-- A row of `user_consents`. -/
structure UserConsent where
  userId : Nat
  actionType : String
  scope : Option String
  isGranted : Bool
  conditions : Option Conditions
  grantedAt : Option Nat
  revokedAt : Option Nat
  expiresAt : Option Nat
  lastUsedAt : Option Nat
  useCount : Nat
deriving DecidableEq

/-- `UserConsent.is_valid`: granted, not revoked, not expired. -/
def UserConsent.isValid (c : UserConsent) (now : Nat) : Bool :=
  if !c.isGranted then false
  else if c.revokedAt.isSome then false
  else
    match c.expiresAt with
    | some t => !(t < now)
    | none => true

/-- `UserConsent.check_conditions`: true when there are no conditions;
an `allowed_hours` window denies outside `[start, end]`; `max_per_day`
is present but unchecked in the source. -/
def UserConsent.checkConditions (c : UserConsent) (hour : Nat) : Bool :=
  match c.conditions with
  | none => true
  | some cond =>
    match cond.allowedHours with
    | some window => !(hour < window.1 || window.2 < hour)
    | none => true

/-- The filter of `ConsentManager.check_consent`'s query:
`user_id == uid AND action_type == act AND is_granted == True`. -/
def grantedKey (uid : Nat) (act : String) (c : UserConsent) : Bool :=
  c.userId == uid && c.actionType == act && c.isGranted

/-- The filter of `grant_consent`/`revoke_consent`'s query:
`user_id == uid AND action_type == act`. -/
def consentKey (uid : Nat) (act : String) (c : UserConsent) : Bool :=
  c.userId == uid && c.actionType == act

/-- The in-place update performed on allow:
`consent.last_used_at = utcnow(); consent.use_count += 1` applied to
the first row matched by the `check_consent` query. -/
def touchFirstGranted (uid : Nat) (act : String) (now : Nat) :
    List UserConsent → List UserConsent
  | [] => []
  | c :: rest =>
    if grantedKey uid act c then
      { c with lastUsedAt := some now, useCount := c.useCount + 1 } :: rest
    else c :: touchFirstGranted uid act now rest

/-- Result of `ConsentManager.check_consent`: the returned pair plus the
table after the call (the allowed branch commits a row update). -/
structure ConsentCheck where
  allowed : Bool
  reason : Option String
  rows : List UserConsent

/-- `ConsentManager.check_consent(db, user_id, action_type)`. -/
def checkConsent (rows : List UserConsent) (uid : Nat) (act : String)
    (clk : Clock) : ConsentCheck :=
  match rows.find? (grantedKey uid act) with
  | none => ⟨false, some ("No consent granted for " ++ act), rows⟩
  | some c =>
    if !(c.isValid clk.now) then
      ⟨false, some ("Consent for " ++ act ++ " has expired or been revoked"),
        rows⟩
    else if !(c.checkConditions clk.hour) then
      ⟨false, some ("Consent conditions not met for " ++ act), rows⟩
    else ⟨true, none, touchFirstGranted uid act clk.now rows⟩

/-- The in-place update of `grant_consent` on an existing row. -/
def regrantFirst (uid : Nat) (act : String) (scope : Option String)
    (conditions : Option Conditions) (expiresAt : Option Nat) (now : Nat) :
    List UserConsent → List UserConsent
  | [] => []
  | c :: rest =>
    if consentKey uid act c then
      { c with
        isGranted := true
        scope := scope
        conditions := conditions
        grantedAt := some now
        revokedAt := none
        expiresAt := expiresAt } :: rest
    else c :: regrantFirst uid act scope conditions expiresAt now rest

/-- `ConsentManager.grant_consent`: update the single logical row for
`(user, action_type)` when present, otherwise insert a fresh row. -/
def grantConsent (rows : List UserConsent) (uid : Nat) (act : String)
    (scope : Option String) (conditions : Option Conditions)
    (expiresAt : Option Nat) (now : Nat) : List UserConsent :=
  if rows.any (consentKey uid act) then
    regrantFirst uid act scope conditions expiresAt now rows
  else
    rows ++ [{ userId := uid
               actionType := act
               scope := scope
               isGranted := true
               conditions := conditions
               grantedAt := some now
               revokedAt := none
               expiresAt := expiresAt
               lastUsedAt := none
               useCount := 0 }]

/-- The in-place update of `revoke_consent` on the matched row. -/
def revokeFirst (uid : Nat) (act : String) (now : Nat) :
    List UserConsent → List UserConsent
  | [] => []
  | c :: rest =>
    if consentKey uid act c then
      { c with isGranted := false, revokedAt := some now } :: rest
    else c :: revokeFirst uid act now rest

/-- `ConsentManager.revoke_consent`: `False` when no row matches,
otherwise mark the row not granted and record `revoked_at`. -/
def revokeConsent (rows : List UserConsent) (uid : Nat) (act : String)
    (now : Nat) : Bool × List UserConsent :=
  if rows.any (consentKey uid act) then (true, revokeFirst uid act now rows)
  else (false, rows)

/-- The data-model invariant "at most one logical record per
(user, action_type)", maintained by `grant_consent`: no two rows share
a key. -/
def noDupConsentKeys : List UserConsent → Bool
  | [] => true
  | c :: rest =>
    rest.all (fun d => !(consentKey c.userId c.actionType d)) &&
      noDupConsentKeys rest

/-- Running `check_consent` at each clock of a list in turn, threading
the table; true when every check in the sequence is denied. -/
def allChecksDenied (uid : Nat) (act : String) :
    List UserConsent → List Clock → Bool
  | _, [] => true
  | rows, clk :: rest =>
    let r := checkConsent rows uid act clk
    !r.allowed && allChecksDenied uid act r.rows rest


/-! ## Task and instruction store (`app/models/task.py`) -/

/-- `TaskStatus` enumeration. -/
inductive TaskStatus where
  | pending
  | inProgress
  | waiting
  | completed
  | failed
deriving DecidableEq

/-- Python `TaskStatus[name]`: lookup by member name, `None` embeds the
`KeyError` raised on an unknown name. -/
def statusFromName : String → Option TaskStatus
  | "PENDING" => some .pending
  | "IN_PROGRESS" => some .inProgress
  | "WAITING" => some .waiting
  | "COMPLETED" => some .completed
  | "FAILED" => some .failed
  | _ => none

/-- A row of `tasks`.  `description` keeps the raw JSON value supplied
to `create_task`; no behavior in scope inspects it. -/
structure TaskRec where
  id : Nat
  userId : Nat
  description : JVal
  status : TaskStatus
  memory : Option JVal
  createdAt : Nat
  completedAt : Option Nat

/-- A row of `instructions`.  `instruction` and `triggerType` keep the
raw JSON values supplied to `save_instruction`; SQL comparisons against
them succeed only for equal strings. -/
structure Instruction where
  id : Nat
  userId : Nat
  instruction : JVal
  isActive : Bool
  triggerType : JVal
  createdAt : Nat

/-- SQL equality of a stored JSON value against a string literal. -/
def jeqStr : JVal → String → Bool
  | .jstr t, s => t == s
  | _, _ => false

/-- SQL equality of a stored JSON id against an integer column. -/
def taskIdEq : JVal → Nat → Bool
  | .jnum n, id => n == (id : Int)
  | _, _ => false

/-- SQLAlchemy `.first()` row mutation: update the first row matched by
the filter, leave the rest untouched. -/
def setFirstTask (p : TaskRec → Bool) (f : TaskRec → TaskRec) : List TaskRec → List TaskRec
  | [] => []
  | t :: rest => if p t then f t :: rest else t :: setFirstTask p f rest

/-! ## Chat messages (`app/models/chat.py`) -/

/-- `MessageRole` enumeration. -/
inductive MessageRole where
  | user
  | assistant
  | system
deriving DecidableEq

/-- `msg.role.value`: the string stored in the role column. -/
def MessageRole.value : MessageRole → String
  | .user => "user"
  | .assistant => "assistant"
  | .system => "system"

/-! ## Tool results and audit records -/

/-- A tool execution result dict `{success, result|error,
requires_consent?, action_type?}`.  Keys the Python dicts omit are the
defaults here. -/
structure ToolResult where
  success : Bool
  result : Option JVal := none
  error : Option String := none
  requiresConsent : Bool := false
  actionType : Option String := none

/-- One entry of the `tool_calls_made` list the conversation engine
persists on the assistant message. -/
structure ToolCallRecord where
  tool : String
  input : JVal
  result : ToolResult

/-- A row of `chat_messages`. -/
structure ChatMessageRec where
  userId : Nat
  role : MessageRole
  content : String
  toolCalls : Option (List ToolCallRecord)
  createdAt : Nat

/-- Build a JSON object from a field list. -/
def JObj.ofList : List (String × JVal) → JObj
  | [] => .onil
  | (k, v) :: rest => .ocons k v (JObj.ofList rest)

/-- The JSON dict a `ToolResult` denotes (exactly the keys the Python
construction sites put in the dict). -/
def ToolResult.toJson (r : ToolResult) : JVal :=
  .jobj (JObj.ofList (
    [("success", JVal.jbool r.success)]
    ++ (match r.result with | some v => [("result", v)] | none => [])
    ++ (match r.error with | some e => [("error", JVal.jstr e)] | none => [])
    ++ (if r.requiresConsent then [("requires_consent", JVal.jbool true)]
        else [])
    ++ (match r.actionType with
        | some a => [("action_type", JVal.jstr a)] | none => [])))

/-- A row of `audit_logs` (`app/core/audit.py`); `ip_address` and
`user_agent` are `None` throughout the agent flow because the engine
constructs `ToolExecutor(db, user)` without a request. -/
structure AuditRecord where
  userId : Nat
  userEmail : String
  action : String
  resourceType : String
  resourceId : Option JVal
  details : JVal
  inputData : JVal
  outputData : JVal
  status : String
  errorMessage : Option String
  ipAddress : Option String
  userAgent : Option String
  endpoint : String
  createdAt : Nat

/-- `users.id`, `users.email`, `users.full_name` of the acting user. -/
structure PyUser where
  id : Nat
  email : String
  fullName : String

/-- Python `a or b` over optional JSON values (`None` and falsy values
fall through). -/
def pyOr (a b : Option JVal) : Option JVal :=
  match a with
  | some v => if v.truthy then some v else b
  | none => b

/-- The `resource_type` keyword inference of `log_tool_execution`. -/
def inferResourceType (toolName : String) : String :=
  let t := asciiLower toolName
  if strContains t "email" then "email"
  else if strContains t "calendar" then "calendar"
  else if strContains t "hubspot" then "hubspot"
  else if strContains t "knowledge" then "rag"
  else if strContains t "task" then "task"
  else if strContains t "instruction" then "instruction"
  else "unknown"

/-! ## Agent-visible persistent state

The user-scoped repositories the runtime reads and writes, threaded
through every embedded operation. -/

/-- The database state the orchestration runtime touches. -/
structure AgentState where
  consents : List UserConsent
  tasks : List TaskRec
  instructions : List Instruction
  auditLogs : List AuditRecord
  chatMessages : List ChatMessageRec
  nextTaskId : Nat
  nextInstructionId : Nat

/-- `AuditLogger.log_tool_execution`: sanitize input and output and
append one row.  The source catches persistence errors here; the
embedding models the write as succeeding. -/
def logToolExecution (st : AgentState) (user : PyUser) (toolName : String)
    (toolInput : JVal) (result : ToolResult) (status : String)
    (error : Option String) (now : Nat) : AgentState :=
  let resJson := result.toJson
  let inner := (resJson.getKey "result").getD (JVal.jobj .onil)
  { st with
    auditLogs := st.auditLogs ++
      [{ userId := user.id
         userEmail := user.email
         action := "tool_execution"
         resourceType := inferResourceType toolName
         resourceId := pyOr (inner.getKey "task_id") (inner.getKey "message_id")
         details := .jobj (JObj.ofList
           [("tool_name", JVal.jstr toolName),
            ("execution_time", JVal.jnum (now : Int))])
         inputData := sanitizeVal toolInput
         outputData := sanitizeVal resJson
         status := status
         errorMessage := error
         ipAddress := none
         userAgent := none
         endpoint := "/chat/stream"
         createdAt := now }] }

/-! ## Tool dispatcher (`app/agents/tool_executor.py`) -/

/-- The enumerated sensitive tool set of `ToolExecutor.execute`. -/
def sensitiveTools : List String :=
  ["send_email", "create_calendar_event", "create_hubspot_contact",
   "add_hubspot_note", "create_task"]

/-- The tools `_execute_tool` routes to external collaborators
(Gmail/Calendar/HubSpot/RAG); their handlers build a
`{"success": True, "result": ...}` dict or raise. -/
def externalTools : List String :=
  ["search_knowledge_base", "search_emails", "send_email",
   "check_availability", "create_calendar_event", "search_calendar_events",
   "search_hubspot_contacts", "create_hubspot_contact", "add_hubspot_note"]

/-- Every tool name `_execute_tool` recognizes. -/
def knownTools : List String :=
  externalTools ++ ["create_task", "update_task", "save_instruction"]

/-- The external collaborators: for an external tool call either the
`"result"` payload of the handler's success dict, or a raised
exception's message. -/
structure HandlerEnv where
  external : String → JVal → Except String JVal

/-- Python `d[k]`: a missing key raises. -/
def pyIndex (input : JVal) (key : String) : Except String JVal :=
  match input.getKey key with
  | some v => .ok v
  | none => .error ("KeyError: " ++ key)

/-- `status.upper()` requires a string; anything else raises. -/
def jAsStr : JVal → Except String String
  | .jstr s => .ok s
  | _ => .error "AttributeError: upper"

/-- A rough Python `str()` rendering, used only inside human-readable
result messages. -/
def JVal.render : JVal → String
  | .jstr s => s
  | .jnum n => toString n
  | .jbool true => "True"
  | .jbool false => "False"
  | .jnull => "None"
  | .jarr _ => "[...]"
  | .jobj _ => "{...}"

/-- `ToolExecutor._create_task`. -/
def createTaskTool (st : AgentState) (user : PyUser) (input : JVal)
    (now : Nat) : Except String (ToolResult × AgentState) := do
  let desc ← pyIndex input "description"
  let ctx := (input.getKey "context").getD (JVal.jobj .onil)
  let task : TaskRec :=
    { id := st.nextTaskId
      userId := user.id
      description := desc
      status := .pending
      memory := some ctx
      createdAt := now
      completedAt := none }
  .ok ({ success := true
         result := some (.jobj (JObj.ofList
           [("message", .jstr "Task created"),
            ("task_id", .jnum (task.id : Int))])) },
       { st with tasks := st.tasks ++ [task], nextTaskId := st.nextTaskId + 1 })

/-- `ToolExecutor._update_task`: look up the task by id and owner, set
the status from the uppercased name, overwrite memory when the new
value is truthy, and stamp `completed_at` exactly when the raw status
argument is the string `"completed"`. -/
def updateTaskTool (tasks : List TaskRec) (uid : Nat) (input : JVal)
    (now : Nat) : Except String (ToolResult × List TaskRec) := do
  let tid ← pyIndex input "task_id"
  let statusV ← pyIndex input "status"
  let memoryV := input.getKey "memory"
  match tasks.find? (fun t => taskIdEq tid t.id && t.userId == uid) with
  | none => .ok ({ success := false, error := some "Task not found" }, tasks)
  | some _ => do
    let statusStr ← jAsStr statusV
    let newStatus ← match statusFromName (asciiUpper statusStr) with
      | some s => Except.ok s
      | none => Except.error ("KeyError: " ++ asciiUpper statusStr)
    let tasks' := setFirstTask
      (fun t => taskIdEq tid t.id && t.userId == uid)
      (fun t =>
        { t with
          status := newStatus
          memory := match memoryV with
            | some m => if m.truthy then some m else t.memory
            | none => t.memory
          completedAt :=
            if statusStr == "completed" then some now else t.completedAt })
      tasks
    .ok ({ success := true
           result := some (.jobj (JObj.ofList
             [("message", .jstr ("Task " ++ tid.render ++ " updated to "
                ++ statusStr))])) },
         tasks')

/-- `ToolExecutor._save_instruction`. -/
def saveInstructionTool (st : AgentState) (user : PyUser) (input : JVal)
    (now : Nat) : Except String (ToolResult × AgentState) := do
  let instrText ← pyIndex input "instruction"
  let trigger ← pyIndex input "trigger_type"
  let instr : Instruction :=
    { id := st.nextInstructionId
      userId := user.id
      instruction := instrText
      isActive := true
      triggerType := trigger
      createdAt := now }
  .ok ({ success := true
         result := some (.jobj (JObj.ofList
           [("message", .jstr "Instruction saved"),
            ("instruction_id", .jnum (instr.id : Int))])) },
       { st with
         instructions := st.instructions ++ [instr]
         nextInstructionId := st.nextInstructionId + 1 })

/-- `ToolExecutor._execute_tool`: route by name; external tools go to
their collaborator, task/instruction tools run on the state, an
unrecognized name yields the definitive failure dict. -/
def executeTool (env : HandlerEnv) (st : AgentState) (user : PyUser)
    (toolName : String) (input : JVal) (now : Nat) :
    Except String (ToolResult × AgentState) :=
  if externalTools.contains toolName then
    match env.external toolName input with
    | .ok payload => .ok ({ success := true, result := some payload }, st)
    | .error e => .error e
  else if toolName == "create_task" then
    createTaskTool st user input now
  else if toolName == "update_task" then do
    let (r, tasks') ← updateTaskTool st.tasks user.id input now
    .ok (r, { st with tasks := tasks' })
  else if toolName == "save_instruction" then
    saveInstructionTool st user input now
  else
    .ok ({ success := false, error := some ("Unknown tool: " ++ toolName) }, st)

/-- The f-string rendering of an optional denial reason. -/
def optStr : Option String → String
  | some s => s
  | none => "None"

/-- The shared tail of `ToolExecutor.execute`: run the tool, convert a
raised exception to `{success: False, error}`, and write exactly one
audit record with the appropriate status. -/
def runAndAudit (env : HandlerEnv) (st : AgentState) (user : PyUser)
    (toolName : String) (input : JVal) (clk : Clock) :
    ToolResult × AgentState :=
  match executeTool env st user toolName input clk.now with
  | .ok (r, st2) =>
    (r, logToolExecution st2 user toolName input r
          (if r.success then "success" else "failure") r.error clk.now)
  | .error e =>
    ({ success := false, error := some e },
     logToolExecution st user toolName input
       { success := false, error := some e } "failure" (some e) clk.now)

/-- `ToolExecutor.execute`: consult the consent gate for sensitive
tools — a denial returns the `requires_consent` dict at once, without
running the tool and without writing an audit record — otherwise run
the tool and audit the outcome. -/
def execute (env : HandlerEnv) (st : AgentState) (user : PyUser)
    (toolName : String) (input : JVal) (clk : Clock) :
    ToolResult × AgentState :=
  if sensitiveTools.contains toolName then
    let chk := checkConsent st.consents user.id toolName clk
    let st1 := { st with consents := chk.rows }
    if !chk.allowed then
      ({ success := false
         error := some ("Consent required: " ++ optStr chk.reason)
         requiresConsent := true
         actionType := some toolName }, st1)
    else runAndAudit env st1 user toolName input clk
  else runAndAudit env st user toolName input clk

/-! ## Conversation engine (`FinancialAdvisorAgent`, `app/agents/agent.py`)

The language-model gateway is a parameter: a streamed turn is abstracted
to what the engine reads from it — the accumulated text, the collected
tool-use requests and the stop reason of the `done` event; `none` embeds
a stream that ends without a `done` event (the gateway error path).  The
system prompt is composed and passed through to the gateway unchanged,
so it is closed over by the gateway parameter. -/

/-- One tool-use request collected from a model turn. -/
structure ToolUse where
  id : String
  name : String
  input : JVal

/-- The engine-visible outcome of one streamed model turn. -/
structure GatewayTurn where
  text : String
  toolUses : List ToolUse
  stopReason : String

/-- A structured content block of an API message. -/
inductive CBlock where
  | textB (s : String)
  | toolUseB (id name : String) (input : JVal)
  | toolResultB (toolUseId : String) (content : String)

/-- Message content: a plain string or a block list. -/
inductive MsgContent where
  | textC (s : String)
  | blocksC (bs : List CBlock)

/-- A message of the running conversation passed to the gateway. -/
structure Msg where
  role : String
  content : MsgContent

/-- The events `chat_stream` yields to its caller.  Incremental content
deltas are abstracted to one event per turn carrying the turn's
accumulated text. -/
inductive StreamEvent where
  | contentEv (text : String)
  | toolUseStartEv (toolName : String)
  | toolResultEv (toolName : String) (result : ToolResult)
  | doneEv (message : String)

/-- The tail of `_build_messages` when no explicit history is given:
the user's last 20 messages in chronological order. -/
def recentFromDb (msgs : List ChatMessageRec) : List ChatMessageRec :=
  (msgs.reverse.take 20).reverse

/-- The role-filtering loop of `_build_messages`: skip `system` rows,
map the rest to `{"role": msg.role.value, "content": msg.content}`. -/
def roleFilterLoop : List ChatMessageRec → List Msg
  | [] => []
  | m :: rest =>
    if m.role = .system then roleFilterLoop rest
    else { role := m.role.value, content := .textC m.content } ::
      roleFilterLoop rest

/-- `FinancialAdvisorAgent._build_messages`. -/
def buildMessages (db : List ChatMessageRec)
    (history : List ChatMessageRec) : List Msg :=
  let hist := if history.isEmpty then recentFromDb db else history
  roleFilterLoop hist

/-- The assistant message appended to the running context when a turn
requested tools: the turn text followed by its tool-use blocks. -/
def assistantBlocks (turn : GatewayTurn) : List CBlock :=
  CBlock.textB turn.text ::
    turn.toolUses.map (fun tu => CBlock.toolUseB tu.id tu.name tu.input)

/-- The sequential tool-dispatch segment of one engine turn: execute
each requested tool in model order through `execute`, recording a
`tool_result` block, a stream event and a `tool_calls_made` entry per
tool. -/
def runTools (env : HandlerEnv) (user : PyUser) (clk : Clock) :
    List ToolUse → AgentState → List ToolCallRecord →
    List CBlock × List StreamEvent × AgentState × List ToolCallRecord
  | [], st, made => ([], [], st, made)
  | tu :: rest, st, made =>
    let (r, st1) := execute env st user tu.name tu.input clk
    let made1 := made ++ [{ tool := tu.name, input := tu.input, result := r }]
    let (blocks, evs, st2, made2) := runTools env user clk rest st1 made1
    (CBlock.toolResultB tu.id r.toJson.render :: blocks,
     StreamEvent.toolResultEv tu.name r :: evs, st2, made2)

/-- The agent loop of `chat_stream`, from its `while turn_count <
max_turns` header.  The first component counts gateway calls; in the
two loop-exit tails `assistant_response` is the empty string because
the only assignment to it is on the natural-completion path, which
returns directly. -/
def chatLoop (env : HandlerEnv) (gw : List Msg → Option GatewayTurn)
    (user : PyUser) (clk : Clock) :
    Nat → List Msg → AgentState → List ToolCallRecord →
    Nat × List StreamEvent × AgentState
  | 0, _, st, _ =>
    let aresp := ""
    let stq := if aresp.isEmpty then st
      else { st with
        chatMessages := st.chatMessages ++
          [{ userId := user.id
             role := .assistant
             content := aresp
             toolCalls := none
             createdAt := clk.now }] }
    (0, [.doneEv (if aresp.isEmpty then "Task completed." else aresp)], stq)
  | turnsLeft + 1, msgs, st, made =>
    match gw msgs with
    | none =>
      let aresp := ""
      let stq := if aresp.isEmpty then st
        else { st with
          chatMessages := st.chatMessages ++
            [{ userId := user.id
               role := .assistant
               content := aresp
               toolCalls := none
               createdAt := clk.now }] }
      (1, [.doneEv (if aresp.isEmpty then "Task completed." else aresp)], stq)
    | some turn =>
      if turn.toolUses.isEmpty || turn.stopReason == "end_turn" then
        let amsg : ChatMessageRec :=
          { userId := user.id
            role := .assistant
            content := turn.text
            toolCalls := if made.isEmpty then none else some made
            createdAt := clk.now }
        (1, [.contentEv turn.text, .doneEv turn.text],
         { st with chatMessages := st.chatMessages ++ [amsg] })
      else
        let msgs1 := msgs ++
          [{ role := "assistant", content := .blocksC (assistantBlocks turn) }]
        let (blocks, evs, st1, made1) := runTools env user clk turn.toolUses st made
        let msgs2 := msgs1 ++ [{ role := "user", content := .blocksC blocks }]
        let (n, evs', st2) := chatLoop env gw user clk turnsLeft msgs2 st1 made1
        (n + 1, .contentEv turn.text :: (evs ++ evs'), st2)

/-- `FinancialAdvisorAgent.chat_stream`: persist the user message first,
build the running context from history (or the stored recent messages,
which at this point already include the new user row), append the user
message, and run the agent loop. -/
def chatStream (env : HandlerEnv) (gw : List Msg → Option GatewayTurn)
    (user : PyUser) (clk : Clock) (userMessage : String)
    (history : List ChatMessageRec) (maxTurns : Nat) (st : AgentState) :
    Nat × List StreamEvent × AgentState :=
  let userMsg : ChatMessageRec :=
    { userId := user.id
      role := .user
      content := userMessage
      toolCalls := none
      createdAt := clk.now }
  let st0 := { st with chatMessages := st.chatMessages ++ [userMsg] }
  let msgs := buildMessages st0.chatMessages history ++
    [{ role := "user", content := .textC userMessage }]
  chatLoop env gw user clk maxTurns msgs st0 []

/-! ## Proactive evaluator (`FinancialAdvisorAgent.proactive_check`) -/

/-- The gateway's non-streaming decision response: its text and the
tool calls it emitted. -/
structure ProactiveResponse where
  text : String
  toolUses : List ToolUse

/-- The proactive action segment: execute every emitted tool call, in
order, through the dispatcher, discarding the results as the source
does. -/
def execAllTools (env : HandlerEnv) (user : PyUser) (clk : Clock) :
    List ToolUse → AgentState → AgentState
  | [], st => st
  | tu :: rest, st =>
    execAllTools env user clk rest (execute env st user tu.name tu.input clk).2

/-- `FinancialAdvisorAgent.proactive_check`: load matching active
instructions — none short-circuits to `False` with no model call — ask
the gateway (its response is the `resp` parameter), treat a `NO_ACTION`
sentinel anywhere in the text as a hard negative, otherwise execute all
emitted tool calls and persist a synthetic system-role summary.  The
last component counts gateway calls. -/
def proactiveCheck (env : HandlerEnv) (resp : ProactiveResponse)
    (st : AgentState) (user : PyUser) (eventType : String) (clk : Clock) :
    Bool × AgentState × Nat :=
  let matching := st.instructions.filter (fun i =>
    i.userId == user.id && i.isActive &&
      (jeqStr i.triggerType eventType || jeqStr i.triggerType "always"))
  if matching.isEmpty then (false, st, 0)
  else if strContains resp.text "NO_ACTION" then (false, st, 1)
  else
    let st1 := execAllTools env user clk resp.toolUses st
    let sysMsg : ChatMessageRec :=
      { userId := user.id
        role := .system
        content := "[Proactive] " ++ resp.text
        toolCalls := none
        createdAt := clk.now }
    (true, { st1 with chatMessages := st1.chatMessages ++ [sysMsg] }, 1)

/-! ## Concrete fixtures

Concrete states, inputs and environments used by the closed witness and
counterexample theorems below. -/

/-- The message carried by a terminal `done` event, when the event is
one. -/
def doneMessageOf : StreamEvent → Option String
  | .doneEv m => some m
  | _ => none

/-- A granted, unconditioned `send_email` consent row. -/
def consentRowW : UserConsent :=
  { userId := 1
    actionType := "send_email"
    scope := some "all"
    isGranted := true
    conditions := none
    grantedAt := some 1
    revokedAt := none
    expiresAt := none
    lastUsedAt := none
    useCount := 0 }

/-- A fixed clock. -/
def clockW : Clock := ⟨100, 10⟩

/-- The acting user. -/
def userW : PyUser :=
  { id := 1, email := "advisor@example.com", fullName := "Advisor" }

/-- External handlers that always succeed with a `null` payload. -/
def envOkW : HandlerEnv := ⟨fun _ _ => .ok .jnull⟩

/-- External handlers that always raise. -/
def envRaiseW : HandlerEnv := ⟨fun _ _ => .error "connection reset"⟩

/-- The empty database state. -/
def emptyStateW : AgentState :=
  { consents := []
    tasks := []
    instructions := []
    auditLogs := []
    chatMessages := []
    nextTaskId := 1
    nextInstructionId := 1 }

/-- A task of user 1 already in `completed`. -/
def completedTaskW : TaskRec :=
  { id := 1
    userId := 1
    description := .jstr "follow up with Sara"
    status := .completed
    memory := none
    createdAt := 1
    completedAt := some 2 }

/-- A task of user 1 still in `pending`. -/
def pendingTaskW : TaskRec :=
  { completedTaskW with status := .pending, completedAt := none }

/-- State holding only the completed task. -/
def stCompletedTaskW : AgentState := { emptyStateW with tasks := [completedTaskW] }

/-- State holding only the pending task. -/
def stPendingTaskW : AgentState := { emptyStateW with tasks := [pendingTaskW] }

/-- `update_task` input `{"task_id": 1, "status": "pending"}`. -/
def updToPendingW : JVal :=
  .jobj (JObj.ofList [("task_id", .jnum 1), ("status", .jstr "pending")])

/-- `update_task` input `{"task_id": 1, "status": "COMPLETED"}`. -/
def updToCompletedUpperW : JVal :=
  .jobj (JObj.ofList [("task_id", .jnum 1), ("status", .jstr "COMPLETED")])

/-- `update_task` input `{"task_id": 1, "status": "completed"}`. -/
def updToCompletedW : JVal :=
  .jobj (JObj.ofList [("task_id", .jnum 1), ("status", .jstr "completed")])

/-- An active instruction of user 1 triggered by `email` events. -/
def instrW : Instruction :=
  { id := 1
    userId := 1
    instruction := .jstr "Reply to clients when they email"
    isActive := true
    triggerType := .jstr "email"
    createdAt := 1 }

/-- State holding only that instruction. -/
def instrStateW : AgentState := { emptyStateW with instructions := [instrW] }

/-- A gateway that always produces text, one tool request and a
non-terminal stop reason. -/
def gwToolsW : List Msg → Option GatewayTurn :=
  fun _ => some
    { text := "hello"
      toolUses := [⟨"tool_0", "search_emails", .jobj .onil⟩]
      stopReason := "tool_use" }

/-- A proactive model response that acts (no sentinel) with no tool
calls. -/
def respActW : ProactiveResponse :=
  { text := "Sending the reply now.", toolUses := [] }

/-! ####################################################################
## Theorems
#################################################################### -/

/-- Keys matching the claim's four-key pattern match the full denylist. -/
theorem claimKey_sensitive (k : String) (h : isClaimKey k = true) :
    isSensitiveKey k = true := by
  simp only [isClaimKey, claimKeys, List.any_cons, List.any_nil,
    Bool.or_eq_true, Bool.or_false] at h
  rcases h with h | h | h | h <;>
    simp [isSensitiveKey, sensitiveKeys, h]

mutual
/-- A sanitized value is clean for any predicate implying the denylist. -/
theorem sanitizeVal_clean (p : String → Bool)
    (hp : ∀ k, p k = true → isSensitiveKey k = true) :
    (v : JVal) → valClean p (sanitizeVal v) = true
  | .jstr _ => rfl
  | .jnum _ => rfl
  | .jbool _ => rfl
  | .jnull => rfl
  | .jarr items => by
    simpa [sanitizeVal, valClean] using sanitizeArr_clean p hp items
  | .jobj fields => by
    simpa [sanitizeVal, valClean] using sanitizeObj_clean p hp fields

/-- A sanitized array is clean for any predicate implying the denylist. -/
theorem sanitizeArr_clean (p : String → Bool)
    (hp : ∀ k, p k = true → isSensitiveKey k = true) :
    (xs : JArr) → arrClean p (sanitizeArr xs) = true
  | .anil => rfl
  | .acons h t => by
    simp [sanitizeArr, arrClean, sanitizeVal_clean p hp h,
      sanitizeArr_clean p hp t]

/-- Sanitized object fields are clean for any predicate implying the
denylist. -/
theorem sanitizeObj_clean (p : String → Bool)
    (hp : ∀ k, p k = true → isSensitiveKey k = true) :
    (fs : JObj) → objClean p (sanitizeObj fs) = true
  | .onil => rfl
  | .ocons k v t => by
    by_cases hk : isSensitiveKey k = true
    · have hrest := sanitizeObj_clean p hp t
      by_cases hpk : p k = true
      · simp [sanitizeObj, objClean, hk, hpk, isRedacted, hrest]
      · simp [sanitizeObj, objClean, hk, hpk, hrest, valClean]
    · have hpk : p k ≠ true := fun hc => hk (hp k hc)
      simp [sanitizeObj, objClean, hk, hpk,
        sanitizeVal_clean p hp v, sanitizeObj_clean p hp t]
end

/-! ### Consent lemmas -/

/-- A denied `check_consent` call commits nothing: the table is
returned unchanged on all three denial branches. -/
theorem checkConsent_denied_frame (rows : List UserConsent) (uid : Nat)
    (act : String) (clk : Clock)
    (h : (checkConsent rows uid act clk).allowed = false) :
    (checkConsent rows uid act clk).rows = rows := by
  unfold checkConsent at *
  cases hf : rows.find? (grantedKey uid act) with
  | none => simp [hf]
  | some c =>
    simp only [hf] at h ⊢
    by_cases hv : c.isValid clk.now
    · by_cases hc : c.checkConditions clk.hour
      · simp [hv, hc] at h
      · simp [hv, hc]
    · simp [hv]

/-- `touchFirstGranted` updates exactly the first row the
`check_consent` query would return, in exactly the two usage fields. -/
theorem touchFirst_spec (uid : Nat) (act : String) (now : Nat) :
    ∀ rows : List UserConsent, ∀ c : UserConsent,
      rows.find? (grantedKey uid act) = some c →
      ∃ i, rows.get? i = some c ∧
        (∀ j, j < i → ∀ d, rows.get? j = some d →
          grantedKey uid act d = false) ∧
        touchFirstGranted uid act now rows =
          rows.set i { c with lastUsedAt := some now
                              useCount := c.useCount + 1 }
  | [], c, h => by simp [List.find?] at h
  | c0 :: rest, c, h => by
    by_cases h0 : grantedKey uid act c0
    · have hc : c = c0 := by
        simp [List.find?_cons, h0] at h
        exact h.symm
      subst hc
      refine ⟨0, rfl, ?_, ?_⟩
      · intro j hj; omega
      · simp [touchFirstGranted, h0, List.set]
    · have hrest : rest.find? (grantedKey uid act) = some c := by
        simpa [List.find?_cons, h0] using h
      obtain ⟨i, hget, hfirst, hset⟩ := touchFirst_spec uid act now rest c hrest
      refine ⟨i + 1, by simpa using hget, ?_, ?_⟩
      · intro j hj d hd
        cases j with
        | zero =>
          simp only [List.get?] at hd
          cases hd
          simpa using h0
        | succ j' =>
          exact hfirst j' (by omega) d (by simpa using hd)
      · simp [touchFirstGranted, h0, List.set, hset]

/-- A row not matched by the grant/revoke key filter is not matched by
the stricter `check_consent` filter either. -/
theorem grantedKey_false_of_consentKey_false (uid : Nat) (act : String)
    (d : UserConsent) (h : consentKey uid act d = false) :
    grantedKey uid act d = false := by
  cases hx : (d.userId == uid) <;> cases hy : (d.actionType == act) <;>
    simp_all [grantedKey, consentKey]

/-- A row that is not granted never passes the `check_consent` filter. -/
theorem grantedKey_false_of_not_granted (uid : Nat) (act : String)
    (d : UserConsent) (h : d.isGranted = false) :
    grantedKey uid act d = false := by
  simp [grantedKey, h]

/-- After `revoke_consent`'s row update, under the one-record-per-key
invariant, no row for `(uid, act)` is granted. -/
theorem revokeFirst_no_granted (uid : Nat) (act : String) (now : Nat) :
    ∀ rows : List UserConsent, noDupConsentKeys rows = true →
      ∀ d ∈ revokeFirst uid act now rows, grantedKey uid act d = false
  | [], _, d, hd => by simp [revokeFirst] at hd
  | c0 :: rest, hnd, d, hd => by
    have hnd' : rest.all
        (fun d => !(consentKey c0.userId c0.actionType d)) = true ∧
        noDupConsentKeys rest = true := by
      simpa [noDupConsentKeys, Bool.and_eq_true] using hnd
    by_cases h0 : consentKey uid act c0
    · simp only [revokeFirst, h0, if_pos, List.mem_cons] at hd
      rcases hd with hd | hd
      · subst hd
        exact grantedKey_false_of_not_granted uid act _ rfl
      · have hkey : consentKey c0.userId c0.actionType d = false := by
          have := (List.all_eq_true.mp hnd'.1) d hd
          simpa using this
        have huid : c0.userId = uid ∧ c0.actionType = act := by
          simpa [consentKey, Bool.and_eq_true] using h0
        refine grantedKey_false_of_consentKey_false uid act d ?_
        rw [← huid.1, ← huid.2]; exact hkey
    · simp only [revokeFirst, h0, if_neg, List.mem_cons,
        Bool.not_eq_true] at hd
      rcases hd with hd | hd
      · subst hd
        exact grantedKey_false_of_consentKey_false uid act d
          (Bool.not_eq_true _ ▸ h0)
      · exact revokeFirst_no_granted uid act now rest hnd'.2 d hd

/-- When no row for `(uid, act)` is granted, a `check_consent` call is
denied and leaves the table unchanged. -/
theorem checkConsent_denied_of_no_granted (rows : List UserConsent)
    (uid : Nat) (act : String) (clk : Clock)
    (h : ∀ d ∈ rows, grantedKey uid act d = false) :
    (checkConsent rows uid act clk).allowed = false ∧
      (checkConsent rows uid act clk).rows = rows := by
  have hf : rows.find? (grantedKey uid act) = none := by
    rw [List.find?_eq_none]
    intro d hd
    simp [h d hd]
  simp [checkConsent, hf]

/-- When no row for `(uid, act)` is granted, every sequence of
`check_consent` calls is denied. -/
theorem allChecksDenied_of_no_granted (uid : Nat) (act : String) :
    ∀ clks : List Clock, ∀ rows : List UserConsent,
      (∀ d ∈ rows, grantedKey uid act d = false) →
      allChecksDenied uid act rows clks = true
  | [], _, _ => rfl
  | clk :: rest, rows, h => by
    obtain ⟨hden, hframe⟩ := checkConsent_denied_of_no_granted rows uid act clk h
    simp only [allChecksDenied, hden, Bool.not_false, Bool.true_and, hframe]
    exact allChecksDenied_of_no_granted uid act rest rows h

/-! ### Claim C7 — audit sanitization -/

/-- C7: for every input value and every nesting depth, the audit
sanitizer replaces the value of any key matching the case-insensitive
denylist (password, token, secret, api_key, access_token,
refresh_token, authorization, credit_card, ssn) with the fixed
redaction marker; consequently no sanitized field holds a literal value
for any key matching `token|password|secret|api_key`
(case-insensitive) at any nesting depth. -/
theorem audit_sanitizer_redacts (v : JVal) :
    valClean isSensitiveKey (sanitizeVal v) = true ∧
      valClean isClaimKey (sanitizeVal v) = true :=
  ⟨sanitizeVal_clean isSensitiveKey (fun _ h => h) v,
   sanitizeVal_clean isClaimKey claimKey_sensitive v⟩

/-! ### Claim C4 — consent check frame conditions -/

/-- C4: a denied `check_consent` call leaves every consent row
unchanged; an allowed call updates exactly the first row matching the
query, setting `last_used_at` to the current time and incrementing
`use_count` by exactly one, with every other field and every other row
unchanged. -/
theorem consent_check_frame (rows : List UserConsent) (uid : Nat)
    (act : String) (clk : Clock) :
    ((checkConsent rows uid act clk).allowed = false →
      (checkConsent rows uid act clk).rows = rows) ∧
    ((checkConsent rows uid act clk).allowed = true →
      ∃ i c, rows.get? i = some c ∧ grantedKey uid act c = true ∧
        (∀ j, j < i → ∀ d, rows.get? j = some d →
          grantedKey uid act d = false) ∧
        (checkConsent rows uid act clk).rows =
          rows.set i { c with lastUsedAt := some clk.now
                              useCount := c.useCount + 1 }) := by
  refine ⟨checkConsent_denied_frame rows uid act clk, ?_⟩
  intro hall
  unfold checkConsent at hall ⊢
  cases hf : rows.find? (grantedKey uid act) with
  | none => rw [hf] at hall; simp at hall
  | some c =>
    rw [hf] at hall
    by_cases hv : c.isValid clk.now = true
    · by_cases hc : c.checkConditions clk.hour = true
      · obtain ⟨i, hget, hfirst, hset⟩ :=
          touchFirst_spec uid act clk.now rows c hf
        refine ⟨i, c, hget, List.find?_some hf, hfirst, ?_⟩
        simp [hv, hc, hset]
      · simp [hv, hc] at hall
    · simp [hv] at hall

/-- Witness for C4: on a one-row table with a fresh grant, the check is
allowed and the table afterwards holds exactly the same row with
`use_count` 1 and `last_used_at` stamped. -/
theorem consent_check_frame_witness :
    (checkConsent [consentRowW] 1 "send_email" clockW).allowed = true ∧
    (checkConsent [consentRowW] 1 "send_email" clockW).rows =
      [{ consentRowW with lastUsedAt := some 100, useCount := 1 }] := by
  refine ⟨by decide, ?_⟩
  obtain ⟨i, c, hget, hkey, hfirst, hset⟩ :=
    (consent_check_frame [consentRowW] 1 "send_email" clockW).2 (by decide)
  rw [hset]
  cases i with
  | zero =>
    have hc : consentRowW = c := by simpa using hget
    rw [← hc]
    decide
  | succ n => simp at hget

/-! ### Claim C3 — revocation takes effect immediately -/

/-- C3: under the one-logical-record-per-(user, action_type) invariant,
once `revoke_consent` succeeds, every subsequent `check_consent` for
that user and action type is denied, however many checks follow and at
whatever times. -/
theorem revoke_denies_subsequent_checks (rows : List UserConsent)
    (uid : Nat) (act : String) (now : Nat)
    (h1 : noDupConsentKeys rows = true)
    (h2 : (revokeConsent rows uid act now).1 = true)
    (clks : List Clock) :
    allChecksDenied uid act (revokeConsent rows uid act now).2 clks = true := by
  have hany : rows.any (consentKey uid act) = true := by
    by_contra hc
    rw [Bool.not_eq_true] at hc
    simp [revokeConsent, hc] at h2
  have hrows : (revokeConsent rows uid act now).2 =
      revokeFirst uid act now rows := by
    simp [revokeConsent, hany]
  rw [hrows]
  exact allChecksDenied_of_no_granted uid act clks _
    (revokeFirst_no_granted uid act now rows h1)

/-- Witness for C3: grant, then revoke, then run two checks at later
times — both denied. -/
theorem revoke_denies_subsequent_checks_witness :
    allChecksDenied 1 "send_email"
      (revokeConsent [consentRowW] 1 "send_email" 50).2
      [⟨60, 9⟩, ⟨70, 14⟩] = true :=
  revoke_denies_subsequent_checks [consentRowW] 1 "send_email" 50
    (by decide) (by decide) [⟨60, 9⟩, ⟨70, 14⟩]

/-! ### Task update lemmas -/

/-- `find?` returns the element at the first matching index. -/
theorem find?_eq_of_first {α : Type} (p : α → Bool) :
    ∀ (l : List α) (i : Nat) (a : α), l.get? i = some a → p a = true →
      (∀ j, j < i → ∀ d, l.get? j = some d → p d = false) →
      l.find? p = some a
  | [], i, a, h, _, _ => by simp at h
  | x :: rest, 0, a, h, hp, _ => by
    have hx : x = a := by simpa using h
    subst hx
    simp [List.find?_cons, hp]
  | x :: rest, i + 1, a, h, hp, hfirst => by
    have hx : p x = false := hfirst 0 (Nat.succ_pos i) x rfl
    have ih := find?_eq_of_first p rest i a (by simpa using h) hp
      (fun j hj d hd => hfirst (j + 1) (by omega) d (by simpa using hd))
    simp [List.find?_cons, hx, ih]

/-- Updating the first matching row is a point update at the first
matching index. -/
theorem setFirst_eq_set (p : TaskRec → Bool) (f : TaskRec → TaskRec) :
    ∀ (l : List TaskRec) (i : Nat) (a : TaskRec), l.get? i = some a →
      p a = true →
      (∀ j, j < i → ∀ d, l.get? j = some d → p d = false) →
      setFirstTask p f l = l.set i (f a)
  | [], i, a, h, _, _ => by simp at h
  | x :: rest, 0, a, h, hp, _ => by
    have hx : x = a := by simpa using h
    subst hx
    simp [setFirstTask, hp, List.set]
  | x :: rest, i + 1, a, h, hp, hfirst => by
    have hx : p x = false := hfirst 0 (Nat.succ_pos i) x rfl
    have ih := setFirst_eq_set p f rest i a (by simpa using h) hp
      (fun j hj d hd => hfirst (j + 1) (by omega) d (by simpa using hd))
    simp [setFirstTask, hx, ih, List.set]

/-- Reading back a point update. -/
theorem get?_set_first {α : Type} : ∀ (l : List α) (i : Nat) (a b : α),
    l.get? i = some a → (l.set i b).get? i = some b
  | [], _, _, _, h => by simp at h
  | _ :: _, 0, _, _, _ => by simp [List.set]
  | x :: rest, i + 1, a, b, h => by
    simp only [List.set, List.get?]
    exact get?_set_first rest i a b (by simpa using h)

/-- Full characterization of `_update_task` on a found task: the status
is taken from the uppercased name, memory is overwritten only by a
truthy value, and `completed_at` is stamped exactly when the raw status
string is `"completed"`. -/
theorem updateTaskTool_first_match (tasks : List TaskRec) (uid : Nat)
    (input : JVal) (now : Nat) (tid : JVal) (s : String)
    (newStatus : TaskStatus) (i : Nat) (t : TaskRec)
    (h1 : input.getKey "task_id" = some tid)
    (h2 : input.getKey "status" = some (.jstr s))
    (h3 : statusFromName (asciiUpper s) = some newStatus)
    (h4 : tasks.get? i = some t)
    (h5 : (taskIdEq tid t.id && t.userId == uid) = true)
    (h6 : ∀ j, j < i → ∀ d, tasks.get? j = some d →
      (taskIdEq tid d.id && d.userId == uid) = false) :
    updateTaskTool tasks uid input now = .ok
      ({ success := true
         result := some (.jobj (JObj.ofList
           [("message",
             .jstr ("Task " ++ tid.render ++ " updated to " ++ s))])) },
       tasks.set i
         { t with
           status := newStatus
           memory := match input.getKey "memory" with
             | some m => if m.truthy then some m else t.memory
             | none => t.memory
           completedAt :=
             if s == "completed" then some now else t.completedAt }) := by
  have hfind := find?_eq_of_first
    (fun t => taskIdEq tid t.id && t.userId == uid) tasks i t h4 h5 h6
  have hset := setFirst_eq_set
    (fun t => taskIdEq tid t.id && t.userId == uid)
    (fun t =>
      { t with
        status := newStatus
        memory := match input.getKey "memory" with
          | some m => if m.truthy then some m else t.memory
          | none => t.memory
        completedAt :=
          if s == "completed" then some now else t.completedAt })
    tasks i t h4 h5 h6
  unfold updateTaskTool
  simp only [pyIndex, h1, h2, bind, Except.bind, hfind, jAsStr, h3, hset]

/-! ### Claim C6 — no transition restriction in update_task -/

/-- Amended C6: `_update_task` imposes no transition discipline — for a
found task and any valid status name (after uppercasing), the task's
status becomes the requested status, including transitions out of
`completed` and `failed`. -/
theorem update_task_unrestricted_status (tasks : List TaskRec) (uid : Nat)
    (input : JVal) (now : Nat) (tid : JVal) (s : String)
    (newStatus : TaskStatus) (i : Nat) (t : TaskRec)
    (h1 : input.getKey "task_id" = some tid)
    (h2 : input.getKey "status" = some (.jstr s))
    (h3 : statusFromName (asciiUpper s) = some newStatus)
    (h4 : tasks.get? i = some t)
    (h5 : (taskIdEq tid t.id && t.userId == uid) = true)
    (h6 : ∀ j, j < i → ∀ d, tasks.get? j = some d →
      (taskIdEq tid d.id && d.userId == uid) = false) :
    ∃ r tasks', updateTaskTool tasks uid input now = .ok (r, tasks') ∧
      r.success = true ∧
      (tasks'.get? i).map TaskRec.status = some newStatus := by
  refine ⟨_, _,
    updateTaskTool_first_match tasks uid input now tid s newStatus i t
      h1 h2 h3 h4 h5 h6, rfl, ?_⟩
  rw [get?_set_first tasks i t _ h4]
  rfl

/-- Counterexample to C6 as stated: a `completed` task is moved back to
`pending` by a successful `update_task` call. -/
theorem update_task_leaves_completed_counterexample :
    completedTaskW.status = TaskStatus.completed ∧
    ((updateTaskTool [completedTaskW] 1 updToPendingW 5).toOption.map
      (fun p => (p.1.success, (p.2.get? 0).map TaskRec.status))) =
      some (true, some TaskStatus.pending) := by decide

/-- Witness for amended C6: the same call, through the general
theorem. -/
theorem update_task_unrestricted_status_witness :
    ((updateTaskTool [completedTaskW] 1 updToPendingW 5).toOption.map
      (fun p => (p.2.get? 0).map TaskRec.status)) =
      some (some TaskStatus.pending) := by
  obtain ⟨r, tasks', heq, _hs, hst⟩ := update_task_unrestricted_status
    [completedTaskW] 1 updToPendingW 5 (.jnum 1) "pending"
    TaskStatus.pending 0 completedTaskW rfl rfl (by decide) rfl (by decide)
    (fun j hj d hd => absurd hj (Nat.not_lt_zero j))
  rw [heq]
  show some ((tasks'.get? 0).map TaskRec.status) =
    some (some TaskStatus.pending)
  rw [hst]

/-! ### Claim C9 — completed_at stamping -/

/-- Amended C9: `completed_at` is set to the call's timestamp by
exactly the `update_task` calls whose raw status argument is the
lowercase string `"completed"` — even when the task is already
completed — and is left unchanged by every other call, including
case-variant spellings such as `"COMPLETED"` that do set the status to
completed. -/
theorem update_task_completed_at_spec (tasks : List TaskRec) (uid : Nat)
    (input : JVal) (now : Nat) (tid : JVal) (s : String)
    (newStatus : TaskStatus) (i : Nat) (t : TaskRec)
    (h1 : input.getKey "task_id" = some tid)
    (h2 : input.getKey "status" = some (.jstr s))
    (h3 : statusFromName (asciiUpper s) = some newStatus)
    (h4 : tasks.get? i = some t)
    (h5 : (taskIdEq tid t.id && t.userId == uid) = true)
    (h6 : ∀ j, j < i → ∀ d, tasks.get? j = some d →
      (taskIdEq tid d.id && d.userId == uid) = false) :
    ∃ r tasks', updateTaskTool tasks uid input now = .ok (r, tasks') ∧
      (tasks'.get? i).map TaskRec.completedAt =
        some (if s == "completed" then some now else t.completedAt) ∧
      (tasks'.get? i).map TaskRec.status = some newStatus := by
  refine ⟨_, _,
    updateTaskTool_first_match tasks uid input now tid s newStatus i t
      h1 h2 h3 h4 h5 h6, ?_, ?_⟩
  · rw [get?_set_first tasks i t _ h4]
    rfl
  · rw [get?_set_first tasks i t _ h4]
    rfl

/-- Counterexample to C9 as stated: the status argument `"COMPLETED"`
moves a pending task into `completed` yet leaves `completed_at` null,
so `completed_at` is not set on this transition into `completed`. -/
theorem completed_at_case_counterexample :
    pendingTaskW.completedAt = none ∧
    ((updateTaskTool [pendingTaskW] 1 updToCompletedUpperW 5).toOption.map
      (fun p => (p.2.get? 0).map (fun t => (t.status, t.completedAt)))) =
      some (some (TaskStatus.completed, none)) := by decide

/-- Witness for amended C9: a lowercase `"completed"` call stamps
`completed_at` with the call's timestamp. -/
theorem update_task_completed_at_spec_witness :
    ((updateTaskTool [pendingTaskW] 1 updToCompletedW 5).toOption.map
      (fun p => (p.2.get? 0).map TaskRec.completedAt)) =
      some (some (some 5)) := by
  obtain ⟨r, tasks', heq, hca, _hst⟩ := update_task_completed_at_spec
    [pendingTaskW] 1 updToCompletedW 5 (.jnum 1) "completed"
    TaskStatus.completed 0 pendingTaskW rfl rfl (by decide) rfl (by decide)
    (fun j hj d hd => absurd hj (Nat.not_lt_zero j))
  rw [heq]
  show some ((tasks'.get? 0).map TaskRec.completedAt) = some (some (some 5))
  rw [hca]
  decide

/-! ### Tool dispatcher lemmas -/

/-- `_create_task` touches only the task table. -/
theorem createTaskTool_frame (st : AgentState) (user : PyUser)
    (input : JVal) (now : Nat) (r : ToolResult) (st2 : AgentState)
    (h : createTaskTool st user input now = .ok (r, st2)) :
    st2.auditLogs = st.auditLogs ∧ st2.chatMessages = st.chatMessages ∧
      st2.consents = st.consents := by
  unfold createTaskTool at h
  cases hp : input.getKey "description" with
  | none => simp [pyIndex, hp, bind, Except.bind] at h
  | some v =>
    simp only [pyIndex, hp, bind, Except.bind, Except.ok.injEq,
      Prod.mk.injEq] at h
    obtain ⟨-, h2⟩ := h
    subst h2
    exact ⟨rfl, rfl, rfl⟩

/-- `_save_instruction` touches only the instruction table. -/
theorem saveInstructionTool_frame (st : AgentState) (user : PyUser)
    (input : JVal) (now : Nat) (r : ToolResult) (st2 : AgentState)
    (h : saveInstructionTool st user input now = .ok (r, st2)) :
    st2.auditLogs = st.auditLogs ∧ st2.chatMessages = st.chatMessages ∧
      st2.consents = st.consents := by
  unfold saveInstructionTool at h
  cases hp : input.getKey "instruction" with
  | none => simp [pyIndex, hp, bind, Except.bind] at h
  | some v =>
    cases hq : input.getKey "trigger_type" with
    | none => simp [pyIndex, hp, hq, bind, Except.bind] at h
    | some w =>
      simp only [pyIndex, hp, hq, bind, Except.bind, Except.ok.injEq,
        Prod.mk.injEq] at h
      obtain ⟨-, h2⟩ := h
      subst h2
      exact ⟨rfl, rfl, rfl⟩

/-- `_execute_tool` never writes audit records, chat messages or
consent rows. -/
theorem executeTool_frame (env : HandlerEnv) (st : AgentState)
    (user : PyUser) (toolName : String) (input : JVal) (now : Nat)
    (r : ToolResult) (st2 : AgentState)
    (h : executeTool env st user toolName input now = .ok (r, st2)) :
    st2.auditLogs = st.auditLogs ∧ st2.chatMessages = st.chatMessages ∧
      st2.consents = st.consents := by
  unfold executeTool at h
  split at h
  · cases hx : env.external toolName input with
    | ok payload =>
      rw [hx] at h
      simp only [Except.ok.injEq, Prod.mk.injEq] at h
      obtain ⟨-, h2⟩ := h
      subst h2
      exact ⟨rfl, rfl, rfl⟩
    | error e => rw [hx] at h; cases h
  · split at h
    · exact createTaskTool_frame st user input now r st2 h
    · split at h
      · cases hu : updateTaskTool st.tasks user.id input now with
        | ok p =>
          rw [hu] at h
          simp only [bind, Except.bind, Except.ok.injEq, Prod.mk.injEq] at h
          obtain ⟨-, h2⟩ := h
          subst h2
          exact ⟨rfl, rfl, rfl⟩
        | error e =>
          rw [hu] at h
          simp [bind, Except.bind] at h
      · split at h
        · exact saveInstructionTool_frame st user input now r st2 h
        · simp only [Except.ok.injEq, Prod.mk.injEq] at h
          obtain ⟨-, h2⟩ := h
          subst h2
          exact ⟨rfl, rfl, rfl⟩

/-- `runAndAudit` appends exactly one audit record, always a
`tool_execution` one. -/
theorem runAndAudit_audit (env : HandlerEnv) (st : AgentState)
    (user : PyUser) (toolName : String) (input : JVal) (clk : Clock) :
    (runAndAudit env st user toolName input clk).2.auditLogs.length =
      st.auditLogs.length + 1 ∧
    ∀ rec ∈ (runAndAudit env st user toolName input clk).2.auditLogs,
      rec ∈ st.auditLogs ∨ rec.action = "tool_execution" := by
  unfold runAndAudit
  cases hxt : executeTool env st user toolName input clk.now with
  | ok p =>
    obtain ⟨r0, st2⟩ := p
    obtain ⟨ha, -, -⟩ :=
      executeTool_frame env st user toolName input clk.now r0 st2 hxt
    constructor
    · simp [logToolExecution, ha]
    · intro rec hrec
      simp only [logToolExecution, ha, List.mem_append,
        List.mem_singleton] at hrec
      rcases hrec with h | h
      · exact Or.inl h
      · subst h; exact Or.inr rfl
  | error e =>
    constructor
    · simp [logToolExecution]
    · intro rec hrec
      simp only [logToolExecution, List.mem_append,
        List.mem_singleton] at hrec
      rcases hrec with h | h
      · exact Or.inl h
      · subst h; exact Or.inr rfl

/-- `runAndAudit` never writes chat messages or consent rows. -/
theorem runAndAudit_frame (env : HandlerEnv) (st : AgentState)
    (user : PyUser) (toolName : String) (input : JVal) (clk : Clock) :
    (runAndAudit env st user toolName input clk).2.chatMessages =
      st.chatMessages ∧
    (runAndAudit env st user toolName input clk).2.consents = st.consents := by
  unfold runAndAudit
  cases hxt : executeTool env st user toolName input clk.now with
  | ok p =>
    obtain ⟨r0, st2⟩ := p
    obtain ⟨-, hc, hk⟩ :=
      executeTool_frame env st user toolName input clk.now r0 st2 hxt
    simp [logToolExecution, hc, hk]
  | error e => simp [logToolExecution]

/-- `execute` never writes chat messages. -/
theorem execute_chat_frame (env : HandlerEnv) (st : AgentState)
    (user : PyUser) (toolName : String) (input : JVal) (clk : Clock) :
    ((execute env st user toolName input clk).2).chatMessages =
      st.chatMessages := by
  simp only [execute]
  split_ifs with h1 h2
  · rfl
  · exact (runAndAudit_frame env _ user toolName input clk).1
  · exact (runAndAudit_frame env st user toolName input clk).1

/-- The audit records `execute` adds are all `tool_execution` records
(none of the other three audit surfaces is touched); a consent denial
adds none. -/
theorem execute_audit_actions (env : HandlerEnv) (st : AgentState)
    (user : PyUser) (toolName : String) (input : JVal) (clk : Clock) :
    ∀ rec ∈ ((execute env st user toolName input clk).2).auditLogs,
      rec ∈ st.auditLogs ∨ rec.action = "tool_execution" := by
  simp only [execute]
  split_ifs with h1 h2
  · intro rec hrec
    exact Or.inl hrec
  · exact (runAndAudit_audit env _ user toolName input clk).2
  · exact (runAndAudit_audit env st user toolName input clk).2

/-! ### Claim C1 — consent denial path and the audit trail -/

/-- Amended C1: when a sensitive tool's consent check is denied,
`execute` returns `{success: false, requires_consent: true,
action_type}` without consulting the tool handlers (the result is
independent of the handler environment) and WITHOUT writing any
AuditRecord; on every other path exactly one AuditRecord is written
synchronously before returning. -/
theorem execute_denial_and_audit (env env' : HandlerEnv) (st : AgentState)
    (user : PyUser) (toolName : String) (input : JVal) (clk : Clock) :
    ((sensitiveTools.contains toolName = true ∧
      (checkConsent st.consents user.id toolName clk).allowed = false) →
      ((execute env st user toolName input clk).1.success = false ∧
       (execute env st user toolName input clk).1.requiresConsent = true ∧
       (execute env st user toolName input clk).1.actionType =
         some toolName ∧
       ((execute env st user toolName input clk).2).auditLogs =
         st.auditLogs ∧
       execute env st user toolName input clk =
         execute env' st user toolName input clk)) ∧
    (¬(sensitiveTools.contains toolName = true ∧
       (checkConsent st.consents user.id toolName clk).allowed = false) →
      ((execute env st user toolName input clk).2).auditLogs.length =
        st.auditLogs.length + 1) := by
  constructor
  · rintro ⟨hsens, hden⟩
    have hmem : toolName ∈ sensitiveTools := by simpa using hsens
    simp [execute, hmem, hden]
  · intro hneg
    by_cases hsens : sensitiveTools.contains toolName = true
    · have hall : (checkConsent st.consents user.id toolName clk).allowed =
          true := by
        by_contra hc
        exact hneg ⟨hsens, by simpa using hc⟩
      simp only [execute, hsens, hall]
      simpa using (runAndAudit_audit env
        { consents := (checkConsent st.consents user.id toolName clk).rows
          tasks := st.tasks
          instructions := st.instructions
          auditLogs := st.auditLogs
          chatMessages := st.chatMessages
          nextTaskId := st.nextTaskId
          nextInstructionId := st.nextInstructionId }
        user toolName input clk).1
    · have hf : sensitiveTools.contains toolName = false := by
        simpa using hsens
      simp only [execute, hf]
      simpa using (runAndAudit_audit env st user toolName input clk).1

/-- Counterexample to C1 as stated: a denied sensitive call returns the
`requires_consent` dict but writes no AuditRecord at all. -/
theorem execute_denied_no_audit_counterexample :
    (execute envOkW emptyStateW userW "send_email" (.jobj .onil)
      clockW).1.success = false ∧
    (execute envOkW emptyStateW userW "send_email" (.jobj .onil)
      clockW).1.requiresConsent = true ∧
    ((execute envOkW emptyStateW userW "send_email" (.jobj .onil)
      clockW).2).auditLogs.length = 0 := by decide

/-- Witness for amended C1: the denial path at a concrete state, via
the general theorem. -/
theorem execute_denial_and_audit_witness :
    (execute envOkW emptyStateW userW "send_email" (.jobj .onil)
      clockW).1.requiresConsent = true ∧
    ((execute envOkW emptyStateW userW "send_email" (.jobj .onil)
      clockW).2).auditLogs = emptyStateW.auditLogs ∧
    execute envOkW emptyStateW userW "send_email" (.jobj .onil) clockW =
      execute envRaiseW emptyStateW userW "send_email" (.jobj .onil)
        clockW := by
  obtain ⟨-, h2, -, h4, h5⟩ :=
    (execute_denial_and_audit envOkW envRaiseW emptyStateW userW
      "send_email" (.jobj .onil) clockW).1 ⟨by decide, by decide⟩
  exact ⟨h2, h4, h5⟩

/-! ### Claim C8 — dispatcher error taxonomy -/

/-- A sensitive tool name is a recognized tool name. -/
theorem sensitive_sub_known (toolName : String)
    (h : sensitiveTools.contains toolName = true) :
    knownTools.contains toolName = true := by
  simp [sensitiveTools] at h
  rcases h with h | h | h | h | h <;> subst h <;> decide

/-- `_execute_tool` on an unrecognized name returns the definitive
failure dict. -/
theorem executeTool_unknown (env : HandlerEnv) (st : AgentState)
    (user : PyUser) (toolName : String) (input : JVal) (now : Nat)
    (h : knownTools.contains toolName = false) :
    executeTool env st user toolName input now =
      .ok ({ success := false
             error := some ("Unknown tool: " ++ toolName) }, st) := by
  simp only [knownTools, externalTools] at h
  simp at h
  obtain ⟨h1, h2, h3, h4, h5, h6, h7, h8, h9, h10, h11, h12⟩ := h
  have hnmem : toolName ∉ externalTools := by
    simp [externalTools, h1, h2, h3, h4, h5, h6, h7, h8, h9]
  simp [executeTool, hnmem, h10, h11, h12]

/-- `runAndAudit` converts a raised handler exception into the
structured failure result and one `failure` audit record. -/
theorem runAndAudit_raise (env : HandlerEnv) (st : AgentState)
    (user : PyUser) (toolName : String) (input : JVal) (clk : Clock)
    (e : String)
    (hxt : executeTool env st user toolName input clk.now = .error e) :
    (runAndAudit env st user toolName input clk).1 =
      { success := false, error := some e } ∧
    (runAndAudit env st user toolName input clk).2.auditLogs.length =
      st.auditLogs.length + 1 ∧
    ((runAndAudit env st user toolName input clk).2.auditLogs.getLast?.map
      (fun rec => (rec.status, rec.errorMessage))) =
      some ("failure", some e) := by
  unfold runAndAudit
  rw [hxt]
  refine ⟨rfl, by simp [logToolExecution], ?_⟩
  simp [logToolExecution]

/-- C8: `execute` never propagates an exception — an unrecognized tool
name yields the definitive `Unknown tool` failure result and is still
audited, and a handler that raises yields `{success: false, error}`
with one `failure` audit record, never an exception escaping to the
engine. -/
theorem execute_converts_failures (env : HandlerEnv) (st : AgentState)
    (user : PyUser) (toolName : String) (input : JVal) (clk : Clock)
    (e : String) :
    (knownTools.contains toolName = false →
      ((execute env st user toolName input clk).1.success = false ∧
       (execute env st user toolName input clk).1.error =
         some ("Unknown tool: " ++ toolName) ∧
       ((execute env st user toolName input clk).2).auditLogs.length =
         st.auditLogs.length + 1)) ∧
    (externalTools.contains toolName = true →
      env.external toolName input = .error e →
      (sensitiveTools.contains toolName = true →
        (checkConsent st.consents user.id toolName clk).allowed = true) →
      ((execute env st user toolName input clk).1 =
        { success := false, error := some e } ∧
       ((execute env st user toolName input clk).2).auditLogs.length =
         st.auditLogs.length + 1 ∧
       (((execute env st user toolName input clk).2).auditLogs.getLast?.map
         (fun rec => (rec.status, rec.errorMessage))) =
         some ("failure", some e))) := by
  constructor
  · intro hunk
    have hsens : sensitiveTools.contains toolName = false := by
      cases hc : sensitiveTools.contains toolName
      · rfl
      · rw [sensitive_sub_known toolName hc] at hunk
        cases hunk
    have hxt := executeTool_unknown env st user toolName input clk.now hunk
    simp only [execute, hsens]
    simp only [Bool.false_eq_true, if_false]
    unfold runAndAudit
    rw [hxt]
    refine ⟨rfl, rfl, by simp [logToolExecution]⟩
  · intro hext herr hcons
    by_cases hsens : sensitiveTools.contains toolName = true
    · have hall := hcons hsens
      have hxt : executeTool env
          { consents := (checkConsent st.consents user.id toolName clk).rows
            tasks := st.tasks
            instructions := st.instructions
            auditLogs := st.auditLogs
            chatMessages := st.chatMessages
            nextTaskId := st.nextTaskId
            nextInstructionId := st.nextInstructionId }
          user toolName input clk.now = .error e := by
        have hmem : toolName ∈ externalTools := by simpa using hext
        simp [executeTool, hmem, herr]
      obtain ⟨ha, hb, hc⟩ := runAndAudit_raise env _ user toolName input clk e hxt
      simp only [execute, hsens, hall]
      exact ⟨ha, by simpa using hb, hc⟩
    · have hf : sensitiveTools.contains toolName = false := by
        simpa using hsens
      have hxt : executeTool env st user toolName input clk.now =
          .error e := by
        have hmem : toolName ∈ externalTools := by simpa using hext
        simp [executeTool, hmem, herr]
      obtain ⟨ha, hb, hc⟩ := runAndAudit_raise env st user toolName input clk e hxt
      simp only [execute, hf]
      simp only [Bool.false_eq_true, if_false]
      exact ⟨ha, hb, hc⟩

/-- Witness for C8: an unrecognized name and a raising handler at a
concrete state, via the general theorem. -/
theorem execute_converts_failures_witness :
    ((execute envOkW emptyStateW userW "frobnicate" (.jobj .onil)
        clockW).1.error = some ("Unknown tool: " ++ "frobnicate") ∧
     ((execute envOkW emptyStateW userW "frobnicate" (.jobj .onil)
        clockW).2).auditLogs.length = emptyStateW.auditLogs.length + 1) ∧
    ((execute envRaiseW emptyStateW userW "search_emails" (.jobj .onil)
        clockW).1 = { success := false, error := some "connection reset" } ∧
     (((execute envRaiseW emptyStateW userW "search_emails" (.jobj .onil)
        clockW).2).auditLogs.getLast?.map
        (fun rec => (rec.status, rec.errorMessage))) =
        some ("failure", some "connection reset")) := by
  obtain ⟨-, hu2, hu3⟩ :=
    (execute_converts_failures envOkW emptyStateW userW "frobnicate"
      (.jobj .onil) clockW "unused").1 (by decide)
  obtain ⟨hr1, -, hr3⟩ :=
    (execute_converts_failures envRaiseW emptyStateW userW "search_emails"
      (.jobj .onil) clockW "connection reset").2 (by decide) rfl
      (fun hc => absurd hc (by decide))
  exact ⟨⟨hu2, hu3⟩, ⟨hr1, hr3⟩⟩

/-! ### Claim C10 — system rows never reach the gateway -/

/-- The role-filtering loop is exactly a filter of non-system rows
mapped to API messages (so relative order is preserved). -/
theorem roleFilterLoop_eq_filter_map (l : List ChatMessageRec) :
    roleFilterLoop l =
      (l.filter (fun m => !(m.role == MessageRole.system))).map
        (fun m => { role := m.role.value, content := .textC m.content }) := by
  induction l with
  | nil => rfl
  | cons m rest ih =>
    by_cases hm : m.role = MessageRole.system
    · simp [roleFilterLoop, hm, ih]
    · simp [roleFilterLoop, hm, ih]

/-- No message produced by the role filter carries the `system` role. -/
theorem roleFilterLoop_no_system (l : List ChatMessageRec) :
    (roleFilterLoop l).all (fun m => !(m.role == "system")) = true := by
  induction l with
  | nil => rfl
  | cons m rest ih =>
    cases hm : m.role with
    | system => simpa [roleFilterLoop, hm] using ih
    | user => simpa [roleFilterLoop, hm, MessageRole.value] using ih
    | assistant => simpa [roleFilterLoop, hm, MessageRole.value] using ih

/-- C10: `_build_messages` excludes every system-role ChatMessage while
preserving the relative order of the remaining user and assistant
messages (it is a filter-then-map); consequently the synthetic
system-role summaries persisted by `proactive_check` never re-enter the
gateway context. -/
theorem build_messages_excludes_system (db history : List ChatMessageRec) :
    buildMessages db history =
      ((if history.isEmpty then recentFromDb db else history).filter
        (fun m => !(m.role == MessageRole.system))).map
        (fun m => { role := m.role.value, content := .textC m.content }) ∧
    (buildMessages db history).all (fun m => !(m.role == "system")) =
      true := by
  constructor
  · unfold buildMessages
    exact roleFilterLoop_eq_filter_map _
  · unfold buildMessages
    exact roleFilterLoop_no_system _

/-! ### Claim C5 — proactive evaluator contract -/

/-- Executing a tool-call list leaves the chat log unchanged. -/
theorem execAllTools_chat (env : HandlerEnv) (user : PyUser) (clk : Clock) :
    ∀ (tus : List ToolUse) (st : AgentState),
      (execAllTools env user clk tus st).chatMessages = st.chatMessages
  | [], _ => rfl
  | tu :: rest, st => by
    simp only [execAllTools]
    rw [execAllTools_chat env user clk rest _]
    exact execute_chat_frame env st user tu.name tu.input clk

/-- Executing a tool-call list only adds `tool_execution` audit
records. -/
theorem execAllTools_audit (env : HandlerEnv) (user : PyUser) (clk : Clock) :
    ∀ (tus : List ToolUse) (st : AgentState),
      ∀ rec ∈ (execAllTools env user clk tus st).auditLogs,
        rec ∈ st.auditLogs ∨ rec.action = "tool_execution"
  | [], _ => fun _ hrec => Or.inl hrec
  | tu :: rest, st => by
    intro rec hrec
    simp only [execAllTools] at hrec
    rcases execAllTools_audit env user clk rest _ rec hrec with h | h
    · rcases execute_audit_actions env st user tu.name tu.input clk rec h
        with h' | h'
      · exact Or.inl h'
      · exact Or.inr h'
    · exact Or.inr h

/-- Amended C5: `proactive_check` returns `false` with zero gateway
calls and no state change when no active instruction matches; it
returns `false` whenever the response text contains `NO_ACTION`;
otherwise it returns `true` after one gateway call, executes every
emitted tool call through the dispatcher (whose own audit records are
all `tool_execution` records — `proactive_check` itself writes no
`proactive_action` AuditRecord) and appends exactly one system-role
summary ChatMessage. -/
theorem proactive_check_spec (env : HandlerEnv) (resp : ProactiveResponse)
    (st : AgentState) (user : PyUser) (eventType : String) (clk : Clock) :
    ((st.instructions.filter (fun i =>
        i.userId == user.id && i.isActive &&
          (jeqStr i.triggerType eventType ||
            jeqStr i.triggerType "always"))).isEmpty = true →
      proactiveCheck env resp st user eventType clk = (false, st, 0)) ∧
    (strContains resp.text "NO_ACTION" = true →
      (proactiveCheck env resp st user eventType clk).1 = false) ∧
    ((st.instructions.filter (fun i =>
        i.userId == user.id && i.isActive &&
          (jeqStr i.triggerType eventType ||
            jeqStr i.triggerType "always"))).isEmpty = false →
      strContains resp.text "NO_ACTION" = false →
      ((proactiveCheck env resp st user eventType clk).1 = true ∧
       (proactiveCheck env resp st user eventType clk).2.2 = 1 ∧
       (proactiveCheck env resp st user eventType clk).2.1.chatMessages =
         st.chatMessages ++
           [{ userId := user.id
              role := .system
              content := "[Proactive] " ++ resp.text
              toolCalls := none
              createdAt := clk.now }] ∧
       ∀ rec ∈ (proactiveCheck env resp st user eventType clk).2.1.auditLogs,
         rec ∈ st.auditLogs ∨ rec.action = "tool_execution")) := by
  refine ⟨?_, ?_, ?_⟩
  · intro hempty
    simp [proactiveCheck, hempty]
  · intro hno
    simp [proactiveCheck, hno]
    split_ifs <;> simp
  · intro hmatch hno
    simp only [proactiveCheck, hmatch, hno, Bool.false_eq_true, if_false]
    refine ⟨by trivial, by trivial, ?_, ?_⟩
    · simp [execAllTools_chat]
    · intro rec hrec
      exact execAllTools_audit env user clk resp.toolUses st rec hrec

/-- Counterexample to C5 as stated: a proactive action is taken
(returns `true`, one gateway call) yet the final state holds no
AuditRecord at all — in particular no `proactive_action` record. -/
theorem proactive_no_audit_counterexample :
    (proactiveCheck envOkW respActW instrStateW userW "email" clockW).1 =
      true ∧
    (proactiveCheck envOkW respActW instrStateW userW "email"
      clockW).2.2 = 1 ∧
    (proactiveCheck envOkW respActW instrStateW userW "email"
      clockW).2.1.auditLogs.length = 0 := by decide

/-- Witness for amended C5: the acting path at a concrete state, via
the general theorem. -/
theorem proactive_check_spec_witness :
    (proactiveCheck envOkW respActW instrStateW userW "email" clockW).1 =
      true ∧
    (proactiveCheck envOkW respActW instrStateW userW "email"
      clockW).2.1.chatMessages =
      instrStateW.chatMessages ++
        [{ userId := userW.id
           role := .system
           content := "[Proactive] " ++ respActW.text
           toolCalls := none
           createdAt := clockW.now }] := by
  obtain ⟨h1, -, h3, -⟩ :=
    (proactive_check_spec envOkW respActW instrStateW userW "email"
      clockW).2.2 (by decide) (by decide)
  exact ⟨h1, h3⟩

/-! ### Claim C2 — max_turns exhaustion -/

/-- The last element of an append is the last of a right part that has
one. -/
theorem getLast?_append_some {α : Type} (l1 l2 : List α) (x : α)
    (h : l2.getLast? = some x) : (l1 ++ l2).getLast? = some x := by
  rw [List.getLast?_append_of_ne_nil]
  · exact h
  · intro hc
    subst hc
    simp at h

/-- The last element of a cons is the last of a tail that has one. -/
theorem getLast?_cons_some {α : Type} (a : α) (l : List α) (x : α)
    (h : l.getLast? = some x) : (a :: l).getLast? = some x := by
  rw [← List.singleton_append]
  exact getLast?_append_some [a] l x h

/-- The tool-dispatch segment of a turn leaves the chat log
unchanged. -/
theorem runTools_chat (env : HandlerEnv) (user : PyUser) (clk : Clock) :
    ∀ (tus : List ToolUse) (st : AgentState) (made : List ToolCallRecord),
      ((runTools env user clk tus st made).2.2.1).chatMessages =
        st.chatMessages
  | [], _, _ => rfl
  | tu :: rest, st, made => by
    simp only [runTools]
    rw [runTools_chat env user clk rest _ _]
    exact execute_chat_frame env st user tu.name tu.input clk

/-- When every gateway turn requests at least one tool and never stops
with `end_turn`, the agent loop makes exactly as many gateway calls as
it has turns left, ends its event stream with the fallback
`done "Task completed."` event, and persists no chat message at all. -/
theorem chatLoop_all_tools (env : HandlerEnv)
    (gw : List Msg → Option GatewayTurn) (user : PyUser) (clk : Clock)
    (hgw : ∀ msgs, ∃ t, gw msgs = some t ∧
      (t.toolUses.isEmpty || t.stopReason == "end_turn") = false) :
    ∀ (N : Nat) (msgs : List Msg) (st : AgentState)
      (made : List ToolCallRecord),
      (chatLoop env gw user clk N msgs st made).1 = N ∧
      (chatLoop env gw user clk N msgs st made).2.1.getLast? =
        some (.doneEv "Task completed.") ∧
      (chatLoop env gw user clk N msgs st made).2.2.chatMessages =
        st.chatMessages
  | 0, msgs, st, made => by
    have he : "".isEmpty = true := rfl
    refine ⟨rfl, ?_, ?_⟩ <;> simp [chatLoop, he]
  | N + 1, msgs, st, made => by
    obtain ⟨t, hgwm, hcond⟩ := hgw msgs
    obtain ⟨ih1, ih2, ih3⟩ := chatLoop_all_tools env gw user clk hgw N
      (msgs ++
        [{ role := "assistant", content := .blocksC (assistantBlocks t) }] ++
        [{ role := "user"
           content := .blocksC
             (runTools env user clk t.toolUses st made).1 }])
      ((runTools env user clk t.toolUses st made).2.2.1)
      ((runTools env user clk t.toolUses st made).2.2.2)
    simp only [chatLoop, hgwm, hcond, Bool.false_eq_true, if_false]
    refine ⟨?_, ?_, ?_⟩
    · simpa using ih1
    · refine getLast?_cons_some _ _ _ (getLast?_append_some _ _ _ ?_)
      simpa using ih2
    · rw [show ((chatLoop env gw user clk N
        (msgs ++
          [{ role := "assistant", content := .blocksC (assistantBlocks t) }] ++
          [{ role := "user"
             content := .blocksC
               (runTools env user clk t.toolUses st made).1 }])
        ((runTools env user clk t.toolUses st made).2.2.1)
        ((runTools env user clk t.toolUses st made).2.2.2)).2.2).chatMessages =
        ((runTools env user clk t.toolUses st made).2.2.1).chatMessages
        from ih3]
      exact runTools_chat env user clk t.toolUses st made

/-- Amended C2: when every model turn requests at least one tool and no
turn stops with `end_turn`, `chat_stream` with `max_turns = N` performs
exactly N gateway calls; it then terminates WITHOUT persisting any
assistant ChatMessage (only the initial user message is persisted —
the exhaustion tail guards persistence on `assistant_response`, which
is only ever assigned on the natural-completion path) and emits a
terminal `done` event carrying the fixed fallback text
`"Task completed."` rather than the last generated text. -/
theorem chat_stream_exhaustion_spec (env : HandlerEnv)
    (gw : List Msg → Option GatewayTurn) (user : PyUser) (clk : Clock)
    (userMessage : String) (history : List ChatMessageRec) (N : Nat)
    (st : AgentState)
    (hgw : ∀ msgs, ∃ t, gw msgs = some t ∧
      (t.toolUses.isEmpty || t.stopReason == "end_turn") = false) :
    (chatStream env gw user clk userMessage history N st).1 = N ∧
    (chatStream env gw user clk userMessage history N st).2.1.getLast? =
      some (.doneEv "Task completed.") ∧
    ((chatStream env gw user clk userMessage history N
        st).2.2.chatMessages.filter
      (fun m => m.role == MessageRole.assistant)).length =
      (st.chatMessages.filter
        (fun m => m.role == MessageRole.assistant)).length ∧
    (chatStream env gw user clk userMessage history N
      st).2.2.chatMessages.length = st.chatMessages.length + 1 := by
  obtain ⟨h1, h2, h3⟩ := chatLoop_all_tools env gw user clk hgw N
    (buildMessages
      (st.chatMessages ++
        [{ userId := user.id
           role := .user
           content := userMessage
           toolCalls := none
           createdAt := clk.now }]) history ++
      [{ role := "user", content := .textC userMessage }])
    { st with chatMessages := st.chatMessages ++
        [{ userId := user.id
           role := .user
           content := userMessage
           toolCalls := none
           createdAt := clk.now }] } []
  have hc : (chatStream env gw user clk userMessage history N
      st).2.2.chatMessages =
      st.chatMessages ++
        [{ userId := user.id
           role := .user
           content := userMessage
           toolCalls := none
           createdAt := clk.now }] := h3
  refine ⟨h1, h2, ?_, ?_⟩
  · rw [hc]
    simp
  · rw [hc]
    simp

/-- Counterexample to C2 as stated: with a gateway that always produces
the text `"hello"` plus one tool request and never stops, a one-turn
run persists zero assistant messages and its terminal `done` event
carries `"Task completed."`, not the last generated text `"hello"`. -/
theorem chat_stream_exhaustion_counterexample :
    ((gwToolsW []).map GatewayTurn.text = some "hello") ∧
    ((chatStream envOkW gwToolsW userW clockW "hi" [] 1
        emptyStateW).2.2.chatMessages.filter
      (fun m => m.role == MessageRole.assistant)).length = 0 ∧
    ((chatStream envOkW gwToolsW userW clockW "hi" [] 1
        emptyStateW).2.1.getLast?.bind doneMessageOf) =
      some "Task completed." := by decide

/-- Witness for amended C2: the same gateway for two turns, through the
general theorem. -/
theorem chat_stream_exhaustion_spec_witness :
    (chatStream envOkW gwToolsW userW clockW "hi" [] 2 emptyStateW).1 = 2 ∧
    (chatStream envOkW gwToolsW userW clockW "hi" [] 2
      emptyStateW).2.1.getLast? = some (.doneEv "Task completed.") ∧
    ((chatStream envOkW gwToolsW userW clockW "hi" [] 2
        emptyStateW).2.2.chatMessages.filter
      (fun m => m.role == MessageRole.assistant)).length =
      (emptyStateW.chatMessages.filter
        (fun m => m.role == MessageRole.assistant)).length ∧
    (chatStream envOkW gwToolsW userW clockW "hi" [] 2
      emptyStateW).2.2.chatMessages.length =
      emptyStateW.chatMessages.length + 1 :=
  chat_stream_exhaustion_spec envOkW gwToolsW userW clockW "hi" [] 2
    emptyStateW (fun _ => ⟨_, rfl, by decide⟩)
